import Mathlib

/-!
# Verification of the ffp debug-probe firmware core

Shallow embedding of the parts of the `ffp` firmware (CMSIS-DAP probe with
SWD, JTAG, SWO and a USB device stack) that the specification's claims are
about, together with proofs settling each claim.

Machine integers are modelled as `Nat`; where 32-bit wraparound or bitwise
complement matters we mask with `2^32 - 1` explicitly.
-/

namespace Ffp

/-- All-ones mask for a 32-bit word. -/
def u32mask : Nat := 2 ^ 32 - 1

/-- Bitwise complement of a `u32` value (Rust `!x` on `u32`). -/
def not32 (x : Nat) : Nat := x ^^^ u32mask

/-!
## USB STAT-field helpers (`src/firmware/src/hal/usb/mod.rs`)

The STM32 USB peripheral's STAT_TX/STAT_RX fields are write-1-to-toggle.
These helpers compute the pattern to write so the field ends up in the
desired state.  Embedded from `USB::stat_disabled` … `USB::stat_valid`.
-/

/-- `fn stat_disabled(stat: u32) -> u32 { (stat & 0b10) | (stat & 0b01) }` -/
def stat_disabled (stat : Nat) : Nat := (stat &&& 0b10) ||| (stat &&& 0b01)

/-- `fn stat_stall(stat: u32) -> u32 { (stat & 0b10) | (!stat & 0b01) }` -/
def stat_stall (stat : Nat) : Nat := (stat &&& 0b10) ||| (not32 stat &&& 0b01)

/-- `fn stat_nak(stat: u32) -> u32 { (!stat & 0b10) | (stat & 0b01) }` -/
def stat_nak (stat : Nat) : Nat := (not32 stat &&& 0b10) ||| (stat &&& 0b01)

/-- `fn stat_valid(stat: u32) -> u32 { (!stat & 0b10) | (!stat & 0b01) }` -/
def stat_valid (stat : Nat) : Nat := (not32 stat &&& 0b10) ||| (not32 stat &&& 0b01)

/-!
## SWD engine (`src/firmware/src/swd.rs`)

`SWD::read`/`SWD::write` issue a request over the SPI block, read back the
3-bit ACK, retry on WAIT, and run the data phase.  The hardware side (the
values clocked in from the target) is an oracle `Nat → Attempt`, one entry
per bus transaction attempt.  `hostDriven` records whether `pins.swd_tx()`
has put SWDIO back under host control at return.
-/

/-- `enum Error` from `swd.rs`. -/
inductive SwdError where
  | badParity
  | ackWait
  | ackFault
  | ackProtocol
  | ackUnknown (v : Nat)
  | ackWaitTimeout
  | other
deriving DecidableEq, Repr

/-- `ACK::check_ok`: OK=0b001, WAIT=0b010, FAULT=0b100, PROTOCOL=0b111,
anything else is `AckUnknown`. -/
def ackCheckOk (ack : Nat) : Except SwdError Unit :=
  if ack = 0b001 then .ok ()
  else if ack = 0b010 then .error .ackWait
  else if ack = 0b100 then .error .ackFault
  else if ack = 0b111 then .error .ackProtocol
  else .error (.ackUnknown ack)

/-- `u32::count_ones` of a 32-bit value. -/
def countOnes32 (x : Nat) : Nat := (List.range 32).countP (fun i => x.testBit i)

/-- One read-transaction attempt as seen from the bus: the raw `rx4` value
(turnaround bit then 3 ACK bits), then the data/parity the target would
clock out in the data phase. -/
structure ReadAttempt where
  rx4 : Nat
  data : Nat
  parity : Nat
deriving Repr

/-- One write-transaction attempt: the raw `rx5` value (turnaround, 3 ACK
bits, turnaround). -/
structure WriteAttempt where
  rx5 : Nat
deriving Repr

/-- The 3-bit ACK extracted in `SWD::read`: `self.spi.rx4() >> 1`. -/
def readAckBits (a : ReadAttempt) : Nat := a.rx4 >>> 1

/-- The 3-bit ACK extracted in `SWD::write`: `(self.spi.rx5() >> 1) & 0b111`. -/
def writeAckBits (a : WriteAttempt) : Nat := (a.rx5 >>> 1) &&& 0b111

/-- Result of a whole `SWD::read`/`SWD::write` call: the returned
`swd::Result`, the number of bus transactions attempted, and whether SWDIO
is host-driven at return. -/
structure SwdOutcome (α : Type) where
  result : Except SwdError α
  attempts : Nat
  hostDriven : Bool

/-- `SWD::read(apndp, a, wait_retries)` with the bus behaviour drawn from
`oracle` starting at attempt index `idx`.  On WAIT with retries remaining it
flips the bus to host-driven and recurses with `wait_retries - 1`; on any
other non-OK ACK it flips the bus back and returns the error; on OK it runs
`swd_rdata_phase`, flips the bus back, and checks parity. -/
def swdRead (oracle : Nat → ReadAttempt) : Nat → Nat → SwdOutcome Nat
  | waitRetries, idx =>
    let a := oracle idx
    match ackCheckOk (readAckBits a) with
    | .ok _ =>
        let data := a.data % 2 ^ 32
        let parity := a.parity &&& 1
        if parity = countOnes32 data &&& 1 then
          ⟨.ok data, 1, true⟩
        else
          ⟨.error .badParity, 1, true⟩
    | .error e =>
        if e = .ackWait then
          match waitRetries with
          | waitRetries + 1 =>
              let rest := swdRead oracle waitRetries (idx + 1)
              ⟨rest.result, rest.attempts + 1, rest.hostDriven⟩
          | 0 => ⟨.error .ackWait, 1, true⟩
        else ⟨.error e, 1, true⟩

/-- `SWD::write(apndp, a, data, wait_retries)` with the bus behaviour drawn
from `oracle` starting at attempt index `idx`.  Same ACK/retry structure as
`swdRead`; on OK the data phase is transmit-only and the call succeeds. -/
def swdWrite (oracle : Nat → WriteAttempt) : Nat → Nat → SwdOutcome Unit
  | waitRetries, idx =>
    let a := oracle idx
    match ackCheckOk (writeAckBits a) with
    | .ok _ => ⟨.ok (), 1, true⟩
    | .error e =>
        if e = .ackWait then
          match waitRetries with
          | waitRetries + 1 =>
              let rest := swdWrite oracle waitRetries (idx + 1)
              ⟨rest.result, rest.attempts + 1, rest.hostDriven⟩
          | 0 => ⟨.error .ackWait, 1, true⟩
        else ⟨.error e, 1, true⟩

/-- A concrete read-attempt oracle: two WAIT ACKs (`rx4 = 0b0100`, so the
3-bit ACK is 0b010) followed by FAULT ACKs (`rx4 = 0b1000`, ACK 0b100). -/
def readOracleWW : Nat → ReadAttempt
  | 0 => ⟨0b0100, 0, 0⟩
  | 1 => ⟨0b0100, 0, 0⟩
  | _ => ⟨0b1000, 0, 0⟩

/-- A concrete write-attempt oracle answering WAIT on every attempt
(`rx5 = 0b00100`, so `(rx5 >> 1) & 0b111 = 0b010`). -/
def writeOracleWW : Nat → WriteAttempt := fun _ => ⟨0b00100⟩

/-!
## Control endpoint multi-packet IN staging
(`src/firmware/src/hal/usb/control_endpoint.rs`)

`transmit_slice` hands at most 64 bytes to the hardware at once; longer
responses are staged in `pending_tx_buf`/`pending_tx` and continued by
`transmit_next` on each TX-complete event.
-/

/-- The staging state of `ControlEndpoint`: `pending_tx: Option<(usize,
usize)>` (offset, remaining) and the 256-byte `pending_tx_buf`. -/
structure CtrlTxState where
  pendingTx : Option (Nat × Nat)
  pendingTxBuf : List Nat

/-- `ControlEndpoint::transmit_slice(data)`.  `assert!(data.len() <= 320)`
is modelled as `none`; otherwise returns the packet loaded into the
endpoint buffer and the updated staging state. -/
def transmitSlice (st : CtrlTxState) (data : List Nat) :
    Option (List Nat × CtrlTxState) :=
  if 320 < data.length then none
  else if data.length < 64 then
    some (data, st)
  else
    some (data.take 64,
      { pendingTx := some (0, data.length - 64),
        pendingTxBuf :=
          data.drop 64 ++ st.pendingTxBuf.drop (data.length - 64) })

/-- `ControlEndpoint::transmit_next`, run on a TX-complete event: transmits
the next staged chunk (all remaining bytes when fewer than 64 are left —
including a zero-length packet when exactly 0 remain — else the next 64
bytes), or nothing when no transmission is pending. -/
def transmitNext (st : CtrlTxState) : Option (List Nat) × CtrlTxState :=
  match st.pendingTx with
  | some (idx, len) =>
      if len < 64 then
        (some ((st.pendingTxBuf.drop idx).take len), { st with pendingTx := none })
      else
        (some ((st.pendingTxBuf.drop idx).take 64),
         { st with pendingTx := some (idx + 64, len - 64) })
  | none => (none, st)

/-- Iterate `transmitNext` over successive TX-complete events, collecting
the packets transmitted until nothing is staged (the branch structure below
is exactly that of `transmitNext`, inlined so the recursion is visibly
well-founded on the remaining length). -/
def drainTx (st : CtrlTxState) : List (List Nat) :=
  match hp : st.pendingTx with
  | some (idx, len) =>
      if h : len < 64 then
        [(st.pendingTxBuf.drop idx).take len]
      else
        ((st.pendingTxBuf.drop idx).take 64) ::
          drainTx { st with pendingTx := some (idx + 64, len - 64) }
  | none => []
termination_by match st.pendingTx with | none => 0 | some (_, len) => len + 1
decreasing_by simp [hp]; omega

/-- The full packet sequence the host receives for one control-IN response:
the packet transmitted by `transmit_slice` itself followed by one packet
per TX-complete event until nothing remains staged. -/
def ctrlPacketsFor (st : CtrlTxState) (data : List Nat) :
    Option (List (List Nat)) :=
  match transmitSlice st data with
  | none => none
  | some (first, st2) => some (first :: drainTx st2)

/-- Splits a byte list into successive 64-byte packets; the final packet
holds the fewer-than-64 remaining bytes and is empty exactly when the
length is a multiple of 64. -/
def chunks64 (xs : List Nat) : List (List Nat) :=
  if h : xs.length < 64 then [xs]
  else xs.take 64 :: chunks64 (xs.drop 64)
termination_by xs.length
decreasing_by simp; omega

/-!
## JTAG engine (`src/firmware/src/jtag.rs`)

`JTAG::sequences(data, rxbuf)` parses the CMSIS-DAP `DAP_JTAG_Sequence`
body and bit-bangs each sequence via `JTAG::transfer`.  The TDO line is an
oracle indexed by the global clock-cycle counter; `rxbuf` is assumed long
enough and zero-initialised, as the function's documentation requires.
-/

/-- `JTAG::bytes_for_bits`: `(bits + 7) / 8`. -/
def bytes_for_bits (bits : Nat) : Nat := (bits + 7) / 8

/-- The LSbit-first TDI bit sequence clocked out by
`transfer_wo`/`transfer_rw`: for each byte of `tdi` in turn, bits
`0, 1, …, 7`, stopping once the running bit index reaches the clock count
(`budget` is the count minus the bits already sent). -/
def transferBits : List Nat → Nat → List Bool
  | [], _ => []
  | byte :: rest, budget =>
      if budget < 8 then
        ((List.range 8).map (fun i => byte.testBit i)).take budget
      else
        (List.range 8).map (fun i => byte.testBit i) ++
          transferBits rest (budget - 8)

/-- One captured TDO byte in `transfer_rw`: TDO sampled at cycles
`c0, c0+1, …` is OR-ed into the byte at bit positions `0, 1, …`, for as
many bits as remain of the clock count (`budget`); untouched high bits
stay 0 because `rxbuf` is zero-initialised. -/
def captureByte (oracle : Nat → Bool) (c0 budget : Nat) : Nat :=
  ((((List.range 8).take budget).map
    (fun i => if oracle (c0 + i) then 2 ^ i else 0))).sum

/-- The `nbytes` TDO bytes `transfer_rw` leaves in the capture region of
`rxbuf` for one sequence starting at cycle `c0` with `budget` clock
cycles. -/
def captureBytes (oracle : Nat → Bool) : Nat → Nat → Nat → List Nat
  | 0, _, _ => []
  | k + 1, c0, budget =>
      captureByte oracle c0 budget :: captureBytes oracle k (c0 + 8) (budget - 8)

/-- The observable effect of `JTAG::sequences`: the bytes written into
`rxbuf` in order, the per-clock-cycle `(TMS, TDI)` trace, and the returned
`rxidx`. -/
structure JtagRun where
  rx : List Nat
  trace : List (Bool × Bool)
  rxidx : Nat
deriving Repr

/-- The sequence-processing loop of `JTAG::sequences`: `k` is the sequence
counter (`for _ in 0..nseqs`), `data` the unconsumed request bytes, `cyc`
the global clock-cycle counter.  Each iteration reads the header byte
(bit 7 capture, bit 6 TMS, bits 5..0 clock count with 0 meaning 64),
consumes `bytes_for_bits nbits` TDI bytes, runs the transfer, and on
capture advances `rxidx` by that byte count; it breaks when the request
data runs out. -/
def jtagSequencesLoop (oracle : Nat → Bool) : Nat → List Nat → Nat → JtagRun
  | 0, _, _ => ⟨[], [], 0⟩
  | k + 1, data, cyc =>
      match data with
      | [] => ⟨[], [], 0⟩
      | header :: rest =>
          let capture := header &&& 0b10000000
          let tms := header &&& 0b01000000
          let nbits0 := header &&& 0b00111111
          let nbits := if nbits0 = 0 then 64 else nbits0
          let nbytes := bytes_for_bits nbits
          if rest.length < nbytes then ⟨[], [], 0⟩
          else
            let tdi := rest.take nbytes
            let bits := transferBits tdi nbits
            let seqTrace := bits.map (fun b => (decide (tms ≠ 0), b))
            let restRun :=
              jtagSequencesLoop oracle k (rest.drop nbytes) (cyc + bits.length)
            if capture ≠ 0 then
              ⟨captureBytes oracle nbytes cyc nbits ++ restRun.rx,
               seqTrace ++ restRun.trace,
               nbytes + restRun.rxidx⟩
            else
              ⟨restRun.rx, seqTrace ++ restRun.trace, restRun.rxidx⟩

/-- `JTAG::sequences(data, rxbuf)`: the first byte is the number of
sequences; an empty request returns 0 immediately. -/
def jtagSequences (oracle : Nat → Bool) (data : List Nat) : JtagRun :=
  match data with
  | [] => ⟨[], [], 0⟩
  | nseqs :: rest => jtagSequencesLoop oracle nseqs rest 0

/-- A `DAP_JTAG_Sequence` sequence as the spec describes it: a TDO-capture
flag, a TMS value, a clock count of 1..64 and the TDI data bytes. -/
structure JtagSeqSpec where
  capture : Bool
  tms : Bool
  count : Nat
  tdi : List Nat

/-- Modelled from the spec's framing words: the header byte carries the
clock count in bits 5..0 (64 encoded as 0), the TMS value in bit 6 and
the TDO-capture enable in bit 7 (the three fields occupy disjoint bit
ranges, so the bit-packing is a plain sum). -/
def encodeHeader (s : JtagSeqSpec) : Nat :=
  (if s.count = 64 then 0 else s.count) + 64 * (if s.tms then 1 else 0) +
    128 * (if s.capture then 1 else 0)

/-- Spec-side well-formedness of a sequence: a clock count of 1..64 and
exactly `ceil(count/8)` TDI bytes. -/
def wfJtagSeq (s : JtagSeqSpec) : Prop :=
  1 ≤ s.count ∧ s.count ≤ 64 ∧ s.tdi.length = bytes_for_bits s.count

instance decWfJtagSeq (s : JtagSeqSpec) : Decidable (wfJtagSeq s) :=
  inferInstanceAs
    (Decidable (1 ≤ s.count ∧ s.count ≤ 64 ∧ s.tdi.length = bytes_for_bits s.count))

/-- A whole `DAP_JTAG_Sequence` body per the spec: sequence count first,
then each sequence's header byte followed by its TDI bytes. -/
def encodeJtagBody (ss : List JtagSeqSpec) : List Nat :=
  ss.length :: ss.flatMap (fun s => encodeHeader s :: s.tdi)

/-- Total captured bytes the spec predicts: `ceil(count/8)` for every
capture-enabled sequence. -/
def capturedTotal (ss : List JtagSeqSpec) : Nat :=
  (ss.map (fun s => if s.capture then bytes_for_bits s.count else 0)).sum

/-- The `(TMS, TDI)` trace the spec predicts for one sequence: `count`
cycles at the sequence's TMS value, TDI drawn from successive bytes
LSbit first. -/
def expectedSeqTrace (s : JtagSeqSpec) : List (Bool × Bool) :=
  (List.range s.count).map (fun i => (s.tms, (s.tdi.getD (i / 8) 0).testBit (i % 8)))

/-!
## CMSIS-DAP command interpreter (`src/firmware/src/dap.rs`)

`DAP::process_command` parses a ≤64-byte report.  `Request::next_u8`/
`next_u16`/`next_u32` index `self.data` without bounds checks, so a
too-short body is a panic, modelled as `Except.error .indexOutOfBounds`.
The `ResponseWriter` wraps the 64-byte `rbuf`; it is modelled as an
unbounded byte store (index → byte) plus the write cursor — the claims
settled against it only exercise in-bounds responses.  SWD transactions
reaching the target are an oracle from transaction index to
`swd::Result<u32>`.
-/

/-- A firmware panic from unchecked indexing or slicing. -/
inductive Panic where
  | indexOutOfBounds
deriving DecidableEq, Repr

/-- `Request::next_u8`: `self.data[0]`, panics on an empty body. -/
def nextU8 (data : List Nat) : Except Panic (Nat × List Nat) :=
  match data with
  | [] => .error .indexOutOfBounds
  | b :: rest => .ok (b, rest)

/-- `Request::next_u16`: little-endian from `self.data[0..2]`. -/
def nextU16 (data : List Nat) : Except Panic (Nat × List Nat) :=
  match data with
  | b0 :: b1 :: rest => .ok (b0 + 256 * b1, rest)
  | _ => .error .indexOutOfBounds

/-- `Request::next_u32`: little-endian from `self.data[0..4]`. -/
def nextU32 (data : List Nat) : Except Panic (Nat × List Nat) :=
  match data with
  | b0 :: b1 :: b2 :: b3 :: rest =>
      .ok (b0 + 256 * b1 + 65536 * b2 + 16777216 * b3, rest)
  | _ => .error .indexOutOfBounds

/-- `ResponseWriter`: response bytes by index plus the write cursor. -/
structure RespWriter where
  buf : Nat → Nat
  idx : Nat

/-- `ResponseWriter::new`: writes the command byte at index 0, cursor 1. -/
def respNew (command : Nat) : RespWriter :=
  ⟨fun i => if i = 0 then command else 0, 1⟩

/-- `ResponseWriter::write_u8`. -/
def writeU8 (r : RespWriter) (v : Nat) : RespWriter :=
  ⟨fun i => if i = r.idx then v % 256 else r.buf i, r.idx + 1⟩

/-- `ResponseWriter::write_u16` (little endian). -/
def writeU16 (r : RespWriter) (v : Nat) : RespWriter :=
  ⟨fun i =>
    if i = r.idx then v % 256
    else if i = r.idx + 1 then v / 256 % 256
    else r.buf i,
   r.idx + 2⟩

/-- `ResponseWriter::write_u32` (little endian). -/
def writeU32 (r : RespWriter) (v : Nat) : RespWriter :=
  ⟨fun i =>
    if i = r.idx then v % 256
    else if i = r.idx + 1 then v / 256 % 256
    else if i = r.idx + 2 then v / 65536 % 256
    else if i = r.idx + 3 then v / 16777216 % 256
    else r.buf i,
   r.idx + 4⟩

/-- `ResponseWriter::write_u8_at`: in-place update, cursor unchanged. -/
def writeU8At (r : RespWriter) (j v : Nat) : RespWriter :=
  ⟨fun i => if i = j then v % 256 else r.buf i, r.idx⟩

/-- `ResponseWriter::read_u8_at`. -/
def readU8At (r : RespWriter) (j : Nat) : Nat := r.buf j

/-- `ResponseWriter::finished`: `&buf[..idx]`. -/
def respFinished (r : RespWriter) : List Nat := (List.range r.idx).map r.buf

/-- An SWD transaction result as the DAP layer sees it
(`swd::Result<u32>`; the value is ignored for writes). -/
abbrev SwdResult := Except SwdError Nat

/-- The status byte `CheckResult::check` stores: `Ok` → 1, `AckWait` → 2,
`AckFault` → 4, every other error → `(1 << 3) | 7`. -/
def checkStatusByte : SwdResult → Nat
  | .ok _ => 1
  | .error .ackWait => 2
  | .error .ackFault => 4
  | .error _ => (1 <<< 3) ||| 7

/-- The register-read part of one `DAP_Transfer` element.  An AP read is
posted: issue the AP read (value discarded), then read RDBUFF; a DP read is
direct.  `check` updates the status byte at response index 2 after every
transaction; `none` means the element failed and the loop must break. -/
def issueRead (oracle : Nat → SwdResult) (apndp : Bool) (oidx : Nat)
    (resp : RespWriter) : Option Nat × Nat × RespWriter :=
  if apndp then
    let r1 := oracle oidx
    let resp1 := writeU8At resp 2 (checkStatusByte r1)
    match r1 with
    | .error _ => (none, oidx + 1, resp1)
    | .ok _ =>
        let r2 := oracle (oidx + 1)
        let resp2 := writeU8At resp1 2 (checkStatusByte r2)
        match r2 with
        | .error _ => (none, oidx + 2, resp2)
        | .ok v => (some (v % 2 ^ 32), oidx + 2, resp2)
  else
    let r := oracle oidx
    let resp1 := writeU8At resp 2 (checkStatusByte r)
    match r with
    | .error _ => (none, oidx + 1, resp1)
    | .ok v => (some (v % 2 ^ 32), oidx + 1, resp1)

/-- The value-match retry loop of `process_transfer`: while the read value
misses the target, re-read (updating the status byte) until the re-read
budget (`match_retries` less the tries so far) runs out or a transaction
fails; on failure the stale value is kept, exactly as the Rust `break`
leaves `read_value` unassigned.  Returns the final value, next transaction
index and response state. -/
def vmatchLoop (oracle : Nat → SwdResult) (mask target : Nat) :
    Nat → Nat → Nat → RespWriter → Nat × Nat × RespWriter
  | remaining, oidx, readValue, resp =>
    if readValue &&& mask ≠ target then
      match remaining with
      | 0 => (readValue, oidx, resp)
      | remaining + 1 =>
          let r := oracle oidx
          let resp2 := writeU8At resp 2 (checkStatusByte r)
          match r with
          | .ok v => vmatchLoop oracle mask target remaining (oidx + 1) (v % 2 ^ 32) resp2
          | .error _ => (readValue, oidx + 1, resp2)
    else (readValue, oidx, resp)

/-- The running state of the `process_transfer` loop: unread request bytes,
next SWD transaction index, response writer and the current match mask. -/
structure TransferState where
  reqData : List Nat
  oidx : Nat
  resp : RespWriter
  matchMask : Nat

/-- The `for transfer_idx in 0..ntransfers` loop of
`DAP::process_transfer`.  Every iteration first stores `transfer_idx + 1`
at response index 1; reads break the loop on a failed transaction, a
value-match read that still misses after the retries ORs `1 << 4` into the
byte at index 1 and breaks, match-mask writes only update the mask, and
plain writes break on failure. -/
def transferLoop (oracle : Nat → SwdResult) (matchRetries : Nat) :
    Nat → Nat → TransferState → Except Panic TransferState
  | 0, _, st => .ok st
  | fuel + 1, transferIdx, st =>
      let resp := writeU8At st.resp 1 (transferIdx + 1)
      match nextU8 st.reqData with
      | .error p => .error p
      | .ok (treq, rest) =>
          if treq &&& 2 ≠ 0 then
            match issueRead oracle (treq &&& 1 != 0) st.oidx resp with
            | (none, oidx2, resp2) => .ok ⟨rest, oidx2, resp2, st.matchMask⟩
            | (some v, oidx2, resp2) =>
                if treq &&& 16 ≠ 0 then
                  match nextU32 rest with
                  | .error p => .error p
                  | .ok (target, rest2) =>
                      match vmatchLoop oracle st.matchMask target matchRetries
                          oidx2 v resp2 with
                      | (v2, oidx3, resp3) =>
                        if v2 &&& st.matchMask ≠ target then
                          .ok ⟨rest2, oidx3,
                            writeU8At resp3 1 ((readU8At resp3 1) ||| (1 <<< 4)),
                            st.matchMask⟩
                        else
                          transferLoop oracle matchRetries fuel (transferIdx + 1)
                            ⟨rest2, oidx3, resp3, st.matchMask⟩
                else
                  transferLoop oracle matchRetries fuel (transferIdx + 1)
                    ⟨rest, oidx2, writeU32 resp2 v, st.matchMask⟩
          else
            if treq &&& 32 ≠ 0 then
              match nextU32 rest with
              | .error p => .error p
              | .ok (newMask, rest2) =>
                  transferLoop oracle matchRetries fuel (transferIdx + 1)
                    ⟨rest2, st.oidx, resp, newMask⟩
            else
              match nextU32 rest with
              | .error p => .error p
              | .ok (_, rest2) =>
                  let r := oracle st.oidx
                  let resp2 := writeU8At resp 2 (checkStatusByte r)
                  match r with
                  | .error _ => .ok ⟨rest2, st.oidx + 1, resp2, st.matchMask⟩
                  | .ok _ =>
                      transferLoop oracle matchRetries fuel (transferIdx + 1)
                        ⟨rest2, st.oidx + 1, resp2, st.matchMask⟩

/-- `DAP::process_transfer`: parse the ignored index byte and the transfer
count, reserve response bytes 1–2 (count and status) and run the loop.
Returns the finished response and the number of SWD transactions issued. -/
def processTransfer (oracle : Nat → SwdResult) (matchRetries : Nat)
    (reqData : List Nat) : Except Panic (List Nat × Nat) :=
  match nextU8 reqData with
  | .error p => .error p
  | .ok (_, d1) =>
      match nextU8 d1 with
      | .error p => .error p
      | .ok (ntransfers, d2) =>
          let resp0 := writeU16 (respNew 0x05) 0
          match transferLoop oracle matchRetries ntransfers 0
              ⟨d2, 0, resp0, u32mask⟩ with
          | .error p => .error p
          | .ok st => .ok (respFinished st.resp, st.oidx)

/-- `DAP::process_swj_sequence`: a bit-count byte of 0 means 256 bits, 51
is remapped to 56; a count that is not a multiple of 8 replies ERROR
(0xFF) without transmitting; otherwise `count/8` bytes are sliced from the
rest of the request (an over-short body panics) and transmitted, and the
reply is OK.  Returns `(reply, transmitted bytes)`. -/
def processSwjSequence (reqData : List Nat) : Except Panic (List Nat × List Nat) :=
  match nextU8 reqData with
  | .error p => .error p
  | .ok (b, rest) =>
      let nbits : Nat := if b = 0 then 256 else if b = 51 then 56 else b
      if nbits % 8 ≠ 0 then
        .ok (respFinished (writeU8 (respNew 0x12) 0xFF), [])
      else
        let nbytes := nbits / 8
        if rest.length < nbytes then .error .indexOutOfBounds
        else .ok (respFinished (writeU8 (respNew 0x12) 0x00), rest.take nbytes)

/-- The command codes `Command::try_from` recognises (`enum Command`). -/
def commandCodes : List Nat :=
  [0x00, 0x01, 0x02, 0x03, 0x08, 0x09, 0x0A,
   0x10, 0x11, 0x12, 0x13, 0x1D,
   0x17, 0x18, 0x19, 0x1A, 0x1B, 0x1E, 0x1C,
   0x14, 0x15, 0x16,
   0x04, 0x05, 0x06, 0x07,
   0x7F, 0x7E, 0xFF]

/-- The recognised command codes whose `process_command` arm is the
catch-all `_ => Unimplemented` reply: `DAP_SWD_Sequence`,
`DAP_JTAG_Sequence`, `DAP_JTAG_Configure`, `DAP_JTAG_IDCODE`,
`DAP_ExecuteCommands`, `DAP_QueueCommands` and `Unimplemented` itself. -/
def unimplementedCodes : List Nat := [0x1D, 0x14, 0x15, 0x16, 0x7F, 0x7E, 0xFF]

/-- Outcome of `DAP::process_command`. -/
inductive CmdOutcome where
  /-- `Request::from_report` returned `None` (empty report or a command
  byte `Command::try_from` rejects): no reply is transmitted. -/
  | noResponse
  /-- A fully modelled reply, with any bytes clocked out on the wire. -/
  | reply (resp : List Nat) (tx : List Nat)
  /-- An implemented command whose handler is outside this model
  (Info/HostStatus/Connect/…); its body does not bear on the claims. -/
  | otherImplemented (code : Nat)
  /-- The handler hit unchecked indexing. -/
  | panicked (p : Panic)
deriving DecidableEq, Repr

/-- `DAP::process_command`: dispatch on the first report byte. -/
def processCommand (oracle : Nat → SwdResult) (matchRetries : Nat)
    (report : List Nat) : CmdOutcome :=
  match report with
  | [] => .noResponse
  | cmd :: body =>
      if cmd ∉ commandCodes then .noResponse
      else if cmd = 0x12 then
        match processSwjSequence body with
        | .error p => .panicked p
        | .ok (resp, tx) => .reply resp tx
      else if cmd = 0x05 then
        match processTransfer oracle matchRetries body with
        | .error p => .panicked p
        | .ok (resp, _) => .reply resp []
      else if cmd ∈ unimplementedCodes then .reply [0xFF] []
      else .otherImplemented cmd

/-!
## Control endpoint string-descriptor and vendor-request handling
(`control_endpoint.rs` with `packets.rs` / `descriptors.rs`)

`descriptors.rs` declares the Microsoft OS material — `STRING_MOS =
"MSFT100A"`, the WINUSB compatible-ID descriptor for interfaces 0 and 2,
and the device-interface-GUID properties descriptor — and `packets.rs`
gives `VendorRequest::GetOSFeature = b'A'`; but the control endpoint in
`control_endpoint.rs` never serves them: its string-descriptor match
covers indices 0–5 and stalls the rest, and its vendor-request match has
no `GetOSFeature` arm, so that request falls to the catch-all stall.
-/

/-- The EP0 action taken for a GET_DESCRIPTOR string request. -/
inductive CtrlAction where
  | transmit (bytes : List Nat)
  | stallEp
deriving DecidableEq, Repr

/-- Byte values of an ASCII string. -/
def asciiBytes (s : String) : List Nat := s.data.map (fun c => c.toNat)

/-- `STRING_MFN` from `descriptors.rs`. -/
def STRING_MFN : List Nat := asciiBytes "AGG"

/-- `STRING_PRD` from `descriptors.rs`. -/
def STRING_PRD : List Nat := asciiBytes "FFP r1 with CMSIS-DAP Support"

/-- `STRING_IF_SPI` from `descriptors.rs`. -/
def STRING_IF_SPI : List Nat := asciiBytes "FFP SPI Interface"

/-- `STRING_MOS` from `descriptors.rs` — the Microsoft OS signature
string, declared but never referenced by the control endpoint. -/
def STRING_MOS : List Nat := asciiBytes "MSFT100A"

/-- The STRING descriptor `process_get_string_descriptor` builds for an
ASCII string: `bLength = 2 + 2·len` (as `u8`), type String (3), the
UTF-16LE code units in the 62-byte `bString` field, truncated to
`min(bLength, wLength)`. -/
def stringDescriptorBytes (s : List Nat) (wLength : Nat) : List Nat :=
  ((2 + 2 * s.length) % 256 :: 3 ::
      (s.flatMap (fun c => [c, 0]) ++ List.replicate (62 - 2 * s.length) 0)).take
    (min ((2 + 2 * s.length) % 256) wLength)

/-- `ControlEndpoint::process_get_string_descriptor`: index 0 is the
language table (one language, 0x0409), indices 1–5 the manufacturer,
product, serial (`hexId`, the 24-hex-char unique id read at runtime) and
interface-name strings, and **every other index stalls EP0** — there is no
0xEE arm.  `ifDap` stands for the DAP interface-name string the file
references. -/
def processGetStringDescriptor (hexId ifDap : List Nat) (wLength idx : Nat) :
    CtrlAction :=
  if idx = 0 then
    .transmit (([4, 3, 0x09, 0x04] ++ List.replicate 60 0).take (min 4 wLength))
  else if idx = 1 then .transmit (stringDescriptorBytes STRING_MFN wLength)
  else if idx = 2 then .transmit (stringDescriptorBytes STRING_PRD wLength)
  else if idx = 3 then .transmit (stringDescriptorBytes hexId wLength)
  else if idx = 4 then .transmit (stringDescriptorBytes STRING_IF_SPI wLength)
  else if idx = 5 then .transmit (stringDescriptorBytes ifDap wLength)
  else .stallEp

/-- An application request queued as a `USBStackRequest`. -/
inductive AppReq where
  | setCS (ps : Nat)
  | setFPGA (ps : Nat)
  | setMode (m : Nat)
  | setTPwr (ps : Nat)
  | getTPwr
  | setLED (ps : Nat)
  | bootload
deriving DecidableEq, Repr

/-- Outcome of `ControlEndpoint::process_vendor_request`. -/
inductive VendorOutcome where
  /-- `transmit_ack` with a pending stack request. -/
  | ackPending (r : AppReq)
  /-- Bootload: ACK then `AppRequestAndDetach`. -/
  | ackPendingDetach (r : AppReq)
  /-- GetTPwr: the request is returned to the stack at once, no ACK. -/
  | immediate (r : AppReq)
  /-- EP0 stalled in both directions. -/
  | stalled
deriving DecidableEq, Repr

/-- `ControlEndpoint::process_vendor_request` dispatch on `bRequest` and
`wValue`: SetCS/SetFPGA/SetTPwr/SetLED accept `PinState` 0..1, SetMode
accepts `Mode` 0..3, GetTPwr=5 returns immediately, Bootload=7 ACKs and
detaches; everything else — `GetOSFeature = b'A' = 0x41` included, since
no match arm handles it — stalls. -/
def processVendorRequest (bRequest wValue : Nat) : VendorOutcome :=
  if bRequest = 1 then
    if wValue ≤ 1 then .ackPending (.setCS wValue) else .stalled
  else if bRequest = 2 then
    if wValue ≤ 1 then .ackPending (.setFPGA wValue) else .stalled
  else if bRequest = 3 then
    if wValue ≤ 3 then .ackPending (.setMode wValue) else .stalled
  else if bRequest = 4 then
    if wValue ≤ 1 then .ackPending (.setTPwr wValue) else .stalled
  else if bRequest = 5 then .immediate .getTPwr
  else if bRequest = 6 then
    if wValue ≤ 1 then .ackPending (.setLED wValue) else .stalled
  else if bRequest = 7 then .ackPendingDetach .bootload
  else .stalled

/-- A concrete two-sequence `DAP_JTAG_Sequence` body: 8 clocks with
TMS low and TDO capture on (TDI `0x55`), then 3 clocks with TMS high and
no capture. -/
def jtagSeqsW : List JtagSeqSpec :=
  [⟨true, false, 8, [0x55]⟩, ⟨false, true, 3, [0b101]⟩]

/-- C10: for every current 2-bit STAT field value `stat`, the helpers compute
write-1-to-toggle patterns reaching exactly the intended endpoint state:
`stat ^^^ stat_disabled stat = 0b00` (disabled), `stat ^^^ stat_stall stat =
0b01` (stall), `stat ^^^ stat_nak stat = 0b10` (nak), and
`stat ^^^ stat_valid stat = 0b11` (valid). -/
theorem stat_helpers_toggle_to_target (stat : Nat) (h : stat < 4) :
    stat ^^^ stat_disabled stat = 0b00 ∧
    stat ^^^ stat_stall stat = 0b01 ∧
    stat ^^^ stat_nak stat = 0b10 ∧
    stat ^^^ stat_valid stat = 0b11 := by
  interval_cases stat <;> exact ⟨by decide, by decide, by decide, by decide⟩

/-- Witness for C10 at the concrete STAT value 2 (NAK). -/
theorem stat_helpers_toggle_to_target_witness :
    (2 : Nat) < 4 ∧
    (2 ^^^ stat_disabled 2 = 0b00 ∧ 2 ^^^ stat_stall 2 = 0b01 ∧
     2 ^^^ stat_nak 2 = 0b10 ∧ 2 ^^^ stat_valid 2 = 0b11) :=
  ⟨by decide, stat_helpers_toggle_to_target 2 (by decide)⟩

/-- If every ACK up to and including attempt `r` (counting from `idx`) is
WAIT, `SWD::read` consumes all `r + 1` attempts and fails with `AckWait`,
leaving the bus host-driven. -/
theorem swdRead_allWait (oracle : Nat → ReadAttempt) :
    ∀ r idx, (∀ i, i ≤ r → readAckBits (oracle (idx + i)) = 0b010) →
      swdRead oracle r idx = ⟨.error .ackWait, r + 1, true⟩ := by
  intro r
  induction r with
  | zero =>
      intro idx h
      have h0 : readAckBits (oracle idx) = 0b010 := by simpa using h 0 (Nat.le_refl 0)
      simp [swdRead, h0, ackCheckOk]
  | succ r ih =>
      intro idx h
      have h0 : readAckBits (oracle idx) = 0b010 := by simpa using h 0 (by omega)
      have hrest := ih (idx + 1) (fun i hi => by
        have e1 : idx + 1 + i = idx + (i + 1) := by omega
        rw [e1]
        exact h (i + 1) (by omega))
      simp [swdRead, h0, ackCheckOk, hrest]

/-- If the ACKs at attempts `idx .. idx+k-1` are WAIT and attempt `idx+k`
(with `k ≤ r`) yields a non-WAIT error ACK `e`, `SWD::read` stops right
there: it returns `e` after exactly `k + 1` attempts, bus host-driven. -/
theorem swdRead_firstErrorAck (oracle : Nat → ReadAttempt) (e : SwdError)
    (he : e ≠ .ackWait) :
    ∀ k r idx, k ≤ r →
      (∀ i, i < k → readAckBits (oracle (idx + i)) = 0b010) →
      ackCheckOk (readAckBits (oracle (idx + k))) = .error e →
      swdRead oracle r idx = ⟨.error e, k + 1, true⟩ := by
  intro k
  induction k with
  | zero =>
      intro r idx _ _ hK
      have hK0 : ackCheckOk (readAckBits (oracle idx)) = .error e := by simpa using hK
      cases r with
      | zero => simp [swdRead, hK0, he]
      | succ r => simp [swdRead, hK0, he]
  | succ k ih =>
      intro r idx hkr hpre hK
      have h0 : readAckBits (oracle idx) = 0b010 := by simpa using hpre 0 (by omega)
      cases r with
      | zero => omega
      | succ r =>
          have hrest := ih r (idx + 1) (by omega)
            (fun i hi => by
              have e1 : idx + 1 + i = idx + (i + 1) := by omega
              rw [e1]
              exact hpre (i + 1) (by omega))
            (by
              have e2 : idx + 1 + k = idx + (k + 1) := by omega
              rw [e2]
              exact hK)
          simp [swdRead, h0, ackCheckOk, hrest]

/-- Write counterpart of `swdRead_allWait`. -/
theorem swdWrite_allWait (oracle : Nat → WriteAttempt) :
    ∀ r idx, (∀ i, i ≤ r → writeAckBits (oracle (idx + i)) = 0b010) →
      swdWrite oracle r idx = ⟨.error .ackWait, r + 1, true⟩ := by
  intro r
  induction r with
  | zero =>
      intro idx h
      have h0 : writeAckBits (oracle idx) = 0b010 := by simpa using h 0 (Nat.le_refl 0)
      simp [swdWrite, h0, ackCheckOk]
  | succ r ih =>
      intro idx h
      have h0 : writeAckBits (oracle idx) = 0b010 := by simpa using h 0 (by omega)
      have hrest := ih (idx + 1) (fun i hi => by
        have e1 : idx + 1 + i = idx + (i + 1) := by omega
        rw [e1]
        exact h (i + 1) (by omega))
      simp [swdWrite, h0, ackCheckOk, hrest]

/-- Write counterpart of `swdRead_firstErrorAck`. -/
theorem swdWrite_firstErrorAck (oracle : Nat → WriteAttempt) (e : SwdError)
    (he : e ≠ .ackWait) :
    ∀ k r idx, k ≤ r →
      (∀ i, i < k → writeAckBits (oracle (idx + i)) = 0b010) →
      ackCheckOk (writeAckBits (oracle (idx + k))) = .error e →
      swdWrite oracle r idx = ⟨.error e, k + 1, true⟩ := by
  intro k
  induction k with
  | zero =>
      intro r idx _ _ hK
      have hK0 : ackCheckOk (writeAckBits (oracle idx)) = .error e := by simpa using hK
      cases r with
      | zero => simp [swdWrite, hK0, he]
      | succ r => simp [swdWrite, hK0, he]
  | succ k ih =>
      intro r idx hkr hpre hK
      have h0 : writeAckBits (oracle idx) = 0b010 := by simpa using hpre 0 (by omega)
      cases r with
      | zero => omega
      | succ r =>
          have hrest := ih r (idx + 1) (by omega)
            (fun i hi => by
              have e1 : idx + 1 + i = idx + (i + 1) := by omega
              rw [e1]
              exact hpre (i + 1) (by omega))
            (by
              have e2 : idx + 1 + k = idx + (k + 1) := by omega
              rw [e2]
              exact hK)
          simp [swdWrite, h0, ackCheckOk, hrest]

/-- C3: for every SWD read or write transaction, a WAIT ACK is retried up
to `wait_retries` times (so an all-WAIT bus consumes `wait_retries + 1`
attempts and the transaction then fails with `AckWait`), while every
non-OK, non-WAIT ACK (FAULT, PROTOCOL, unknown) propagates to the caller
immediately — after WAITs only, with no retry of the failing ACK — and in
every failure case the bus is returned to host-driven before returning. -/
theorem swd_wait_retry_and_error_propagation
    (oracleR : Nat → ReadAttempt) (oracleW : Nat → WriteAttempt)
    (waitRetries : Nat) :
    ((∀ i, i ≤ waitRetries → readAckBits (oracleR i) = 0b010) →
        swdRead oracleR waitRetries 0 =
          ⟨.error .ackWait, waitRetries + 1, true⟩) ∧
    (∀ e k, k ≤ waitRetries → e ≠ SwdError.ackWait →
        (∀ i, i < k → readAckBits (oracleR i) = 0b010) →
        ackCheckOk (readAckBits (oracleR k)) = .error e →
        swdRead oracleR waitRetries 0 = ⟨.error e, k + 1, true⟩) ∧
    ((∀ i, i ≤ waitRetries → writeAckBits (oracleW i) = 0b010) →
        swdWrite oracleW waitRetries 0 =
          ⟨.error .ackWait, waitRetries + 1, true⟩) ∧
    (∀ e k, k ≤ waitRetries → e ≠ SwdError.ackWait →
        (∀ i, i < k → writeAckBits (oracleW i) = 0b010) →
        ackCheckOk (writeAckBits (oracleW k)) = .error e →
        swdWrite oracleW waitRetries 0 = ⟨.error e, k + 1, true⟩) := by
  refine ⟨fun h => ?_, fun e k hk he hpre hK => ?_, fun h => ?_,
    fun e k hk he hpre hK => ?_⟩
  · exact swdRead_allWait oracleR waitRetries 0 (by simpa using h)
  · exact swdRead_firstErrorAck oracleR e he k waitRetries 0 hk
      (by simpa using hpre) (by simpa using hK)
  · exact swdWrite_allWait oracleW waitRetries 0 (by simpa using h)
  · exact swdWrite_firstErrorAck oracleW e he k waitRetries 0 hk
      (by simpa using hpre) (by simpa using hK)

/-- Witness for C3: with two WAIT ACKs then a FAULT ACK and
`wait_retries = 2`, the read fails `AckFault` after exactly 3 attempts; on
an all-WAIT bus the write exhausts its retries and fails `AckWait` after 3
attempts.  Both leave the bus host-driven. -/
theorem swd_wait_retry_and_error_propagation_witness :
    swdRead readOracleWW 2 0 = ⟨.error .ackFault, 3, true⟩ ∧
    swdWrite writeOracleWW 2 0 = ⟨.error .ackWait, 3, true⟩ := by
  have h := swd_wait_retry_and_error_propagation readOracleWW writeOracleWW 2
  refine ⟨h.2.1 .ackFault 2 (by decide) (by decide) ?_ ?_, h.2.2.1 ?_⟩
  · intro i hi
    interval_cases i <;> rfl
  · rfl
  · intro i hi
    interval_cases i <;> rfl

theorem getLast?_cons_ne_nil {α : Type} (a : α) {l : List α} (h : l ≠ []) :
    (a :: l).getLast? = l.getLast? := by
  cases l with
  | nil => exact absurd rfl h
  | cons b t => simp [List.getLast?_cons_cons]

theorem chunks64_ne_nil (xs : List Nat) : chunks64 xs ≠ [] := by
  rw [chunks64]
  split <;> simp

/-- Reassembling the 64-byte chunks gives back the original bytes. -/
theorem chunks64_join (xs : List Nat) : (chunks64 xs).flatten = xs := by
  induction xs using chunks64.induct with
  | case1 xs h => rw [chunks64]; simp [h]
  | case2 xs h ih => rw [chunks64]; simp [h, ih]

/-- There are always `len / 64 + 1` chunks (the final, possibly empty,
short chunk included). -/
theorem chunks64_length (xs : List Nat) :
    (chunks64 xs).length = xs.length / 64 + 1 := by
  induction xs using chunks64.induct with
  | case1 xs h => rw [chunks64]; simp [h]; omega
  | case2 xs h ih =>
      rw [chunks64]
      simp only [h, dite_false, List.length_cons, ih, List.length_drop]
      omega

/-- The final chunk is empty exactly when the length is a multiple of 64. -/
theorem chunks64_getLast_empty (xs : List Nat) :
    (chunks64 xs).getLast? = some [] ↔ xs.length % 64 = 0 := by
  induction xs using chunks64.induct with
  | case1 xs h =>
      rw [chunks64]
      simp only [h, dite_true, List.getLast?_singleton, Option.some.injEq]
      rw [Nat.mod_eq_of_lt h]
      constructor
      · intro hx; simp [hx]
      · intro hx; exact List.length_eq_zero.mp hx
  | case2 xs h ih =>
      rw [chunks64]
      simp only [h, dite_false]
      rw [getLast?_cons_ne_nil _ (chunks64_ne_nil _), ih]
      simp only [List.length_drop]
      omega

/-- Every chunk holds at most 64 bytes. -/
theorem chunks64_sizes (xs : List Nat) :
    ∀ p ∈ chunks64 xs, p.length ≤ 64 := by
  induction xs using chunks64.induct with
  | case1 xs h =>
      rw [chunks64]
      simp only [h, dite_true, List.mem_singleton]
      intro p hp; subst hp; omega
  | case2 xs h ih =>
      rw [chunks64]
      simp only [h, dite_false, List.mem_cons]
      rintro p (rfl | hp)
      · simp
      · exact ih p hp

/-- Draining the staged state `(idx, len)` transmits exactly the 64-byte
chunking of the staged bytes `buf[idx .. idx+len]`. -/
theorem drainTx_chunks :
    ∀ len idx buf, idx + len ≤ buf.length →
      drainTx ⟨some (idx, len), buf⟩ = chunks64 ((buf.drop idx).take len) := by
  intro len
  induction len using Nat.strong_induction_on with
  | _ len ih =>
      intro idx buf hlen
      have hys : ((buf.drop idx).take len).length = len := by
        simp [List.length_take, List.length_drop]
        omega
      rw [drainTx]
      by_cases h : len < 64
      · rw [chunks64]
        simp [h, hys]
      · rw [chunks64]
        simp only [hys, h, dite_false, if_neg h]
        rw [List.take_take]
        have hmin : min 64 len = 64 := by omega
        rw [hmin, List.drop_take, List.drop_drop]
        rw [ih (len - 64) (by omega) (idx + 64) buf (by omega)]

theorem drainTx_none (buf : List Nat) : drainTx ⟨none, buf⟩ = [] := by
  rw [drainTx]

/-- C6: for a control-IN response `data` of at most 320 bytes started on an
idle endpoint, `transmit_slice` plus the per-TX-complete `transmit_next`
calls transmit: a single packet equal to `data` when `data.len() < 64`;
otherwise `ceil(len/64)` data packets (whose concatenation is `data`) plus
a trailing zero-length packet exactly when `len` is a multiple of 64.
Every packet is at most 64 bytes, and payloads longer than 320 bytes are
rejected (`assert!`). -/
theorem transmit_slice_packet_contract (st : CtrlTxState) (data : List Nat)
    (hst : st.pendingTx = none) (h : data.length ≤ 320) :
    ∃ packets, ctrlPacketsFor st data = some packets ∧
      (data.length < 64 → packets = [data]) ∧
      packets.flatten = data ∧
      (64 ≤ data.length →
        packets.length =
          (data.length + 63) / 64 + (if data.length % 64 = 0 then 1 else 0) ∧
        (packets.getLast? = some [] ↔ data.length % 64 = 0)) ∧
      (∀ p ∈ packets, p.length ≤ 64) ∧
      (∀ big : List Nat, 320 < big.length → transmitSlice st big = none) := by
  obtain ⟨pend, pbuf⟩ := st
  have hp : pend = none := hst
  subst hp
  by_cases hlt : data.length < 64
  · refine ⟨[data], ?_, fun _ => rfl, by simp, fun h64 => by omega,
      ?_, fun big hbig => ?_⟩
    · rw [ctrlPacketsFor, transmitSlice]
      rw [if_neg (by omega), if_pos hlt]
      simp [drainTx_none]
    · intro p hp
      simp only [List.mem_singleton] at hp
      subst hp
      omega
    · rw [transmitSlice, if_pos hbig]
  · have h64 : 64 ≤ data.length := by omega
    have hdrop : (data.drop 64).length = data.length - 64 := by simp
    have hbufTake :
        ((data.drop 64 ++ pbuf.drop (data.length - 64)).drop 0).take
          (data.length - 64) = data.drop 64 := by
      rw [List.drop_zero, ← hdrop, List.take_left]
    have hdrain :
        drainTx ⟨some (0, data.length - 64),
          data.drop 64 ++ pbuf.drop (data.length - 64)⟩ =
          chunks64 (data.drop 64) := by
      rw [drainTx_chunks (data.length - 64) 0
        (data.drop 64 ++ pbuf.drop (data.length - 64)) (by simp),
        hbufTake]
    refine ⟨data.take 64 :: chunks64 (data.drop 64), ?_, fun hc => by omega,
      ?_, fun _ => ⟨?_, ?_⟩, ?_, fun big hbig => ?_⟩
    · rw [ctrlPacketsFor, transmitSlice]
      rw [if_neg (by omega), if_neg hlt]
      simp only [Option.some.injEq]
      rw [hdrain]
    · simp [chunks64_join]
    · simp only [List.length_cons, chunks64_length, hdrop]
      by_cases hm : data.length % 64 = 0 <;> simp [hm] <;> omega
    · rw [getLast?_cons_ne_nil _ (chunks64_ne_nil _), chunks64_getLast_empty,
        hdrop]
      omega
    · intro p hp
      rcases List.mem_cons.mp hp with rfl | hp2
      · simp
      · exact chunks64_sizes _ p hp2
    · rw [transmitSlice, if_pos hbig]

/-- Witness for C6: a 130-byte response from an idle endpoint is sent as
3 packets (64 + 64 + 2 bytes) whose concatenation is the response. -/
theorem transmit_slice_packet_contract_witness :
    ∃ packets,
      ctrlPacketsFor ⟨none, List.replicate 256 0⟩ (List.replicate 130 7) =
        some packets ∧
      packets.length = 3 ∧ packets.flatten = List.replicate 130 7 := by
  obtain ⟨packets, h1, _, h3, h4, _, _⟩ :=
    transmit_slice_packet_contract ⟨none, List.replicate 256 0⟩
      (List.replicate 130 7) rfl (by simp)
  have h5 := (h4 (by simp)).1
  simp only [List.length_replicate] at h5
  norm_num at h5
  exact ⟨packets, h1, h5, h3⟩

/-- The three header fields occupy disjoint bit ranges, so masking the
spec-packed header recovers each field. -/
theorem headerField_decode (c t p : Nat) (hc : c < 64) (ht : t ≤ 1) (hp : p ≤ 1) :
    (c + 64 * t + 128 * p) &&& 0b00111111 = c ∧
    ((c + 64 * t + 128 * p) &&& 0b01000000 ≠ 0 ↔ t = 1) ∧
    ((c + 64 * t + 128 * p) &&& 0b10000000 ≠ 0 ↔ p = 1) := by
  refine ⟨?_, ?_, ?_⟩
  · have h := Nat.and_pow_two_sub_one_eq_mod (c + 64 * t + 128 * p) 6
    norm_num at h
    rw [h]
    omega
  · have h := Nat.and_two_pow (c + 64 * t + 128 * p) 6
    rw [Nat.testBit_to_div_mod] at h
    norm_num at h
    rw [h]
    by_cases hd : (c + 64 * t + 128 * p) / 64 % 2 = 1 <;> simp [hd] <;> omega
  · have h := Nat.and_two_pow (c + 64 * t + 128 * p) 7
    rw [Nat.testBit_to_div_mod] at h
    norm_num at h
    rw [h]
    by_cases hd : (c + 64 * t + 128 * p) / 128 % 2 = 1 <;> simp [hd] <;> omega

/-- The bit sequence `transfer_wo`/`transfer_rw` transmit is the first `n`
bits of the TDI bytes, least significant bit of each byte first. -/
theorem transferBits_eq (tdi : List Nat) :
    ∀ n, n ≤ 8 * tdi.length →
      transferBits tdi n =
        (List.range n).map (fun i => (tdi.getD (i / 8) 0).testBit (i % 8)) := by
  induction tdi with
  | nil =>
      intro n hn
      simp only [List.length_nil, Nat.mul_zero, Nat.le_zero] at hn
      subst hn
      simp [transferBits]
  | cons byte rest ih =>
      intro n hn
      rw [transferBits]
      by_cases h8 : n < 8
      · rw [if_pos h8, ← List.map_take, List.take_range]
        have hmin : min n 8 = n := by omega
        rw [hmin]
        refine List.map_congr_left ?_
        intro i hi
        have hilt : i < n := List.mem_range.mp hi
        have h1 : i / 8 = 0 := by omega
        have h2 : i % 8 = i := by omega
        rw [h1, h2, List.getD_cons_zero]
      · rw [if_neg h8]
        have hn8 : n = 8 + (n - 8) := by omega
        conv_rhs => rw [hn8, List.range_add, List.map_append, List.map_map]
        have hpart1 : (List.range 8).map (fun i => byte.testBit i) =
            (List.range 8).map
              (fun i => ((byte :: rest).getD (i / 8) 0).testBit (i % 8)) := by
          refine List.map_congr_left ?_
          intro i hi
          have hilt : i < 8 := List.mem_range.mp hi
          have h1 : i / 8 = 0 := by omega
          have h2 : i % 8 = i := by omega
          rw [h1, h2, List.getD_cons_zero]
        have hpart2 : transferBits rest (n - 8) =
            (List.range (n - 8)).map
              ((fun i => ((byte :: rest).getD (i / 8) 0).testBit (i % 8)) ∘
                (fun x => 8 + x)) := by
          rw [ih (n - 8) (by simp at hn ⊢; omega)]
          refine List.map_congr_left ?_
          intro i _
          have h1 : (8 + i) / 8 = i / 8 + 1 := by omega
          have h2 : (8 + i) % 8 = i % 8 := by omega
          simp only [Function.comp_apply, h1, h2, List.getD_cons_succ]
        rw [hpart1, hpart2]

/-- `transfer_rw` leaves exactly `nbytes` bytes in the capture region. -/
theorem captureBytes_length (oracle : Nat → Bool) :
    ∀ nbytes c0 budget, (captureBytes oracle nbytes c0 budget).length = nbytes := by
  intro nbytes
  induction nbytes with
  | zero => intro c0 budget; rfl
  | succ k ih => intro c0 budget; simp [captureBytes, ih]

/-- Processing a spec-well-formed body: the loop consumes each sequence's
header and `ceil(count/8)` TDI bytes, emits the spec-predicted `(TMS, TDI)`
trace, and captures `ceil(count/8)` bytes per capture-enabled sequence. -/
theorem jtagSequencesLoop_encode (oracle : Nat → Bool) :
    ∀ ss : List JtagSeqSpec, ∀ cyc,
      (∀ s ∈ ss, wfJtagSeq s) →
      (jtagSequencesLoop oracle ss.length
          (ss.flatMap (fun s => encodeHeader s :: s.tdi)) cyc).rxidx =
          capturedTotal ss ∧
      (jtagSequencesLoop oracle ss.length
          (ss.flatMap (fun s => encodeHeader s :: s.tdi)) cyc).rx.length =
          capturedTotal ss ∧
      (jtagSequencesLoop oracle ss.length
          (ss.flatMap (fun s => encodeHeader s :: s.tdi)) cyc).trace =
          ss.flatMap expectedSeqTrace := by
  intro ss
  induction ss with
  | nil => intro cyc _; simp [jtagSequencesLoop, capturedTotal]
  | cons s rest ih =>
      intro cyc hwf
      obtain ⟨hc1, hc64, hlen⟩ := hwf s (List.mem_cons_self s rest)
      have hEnc : encodeHeader s =
          (if s.count = 64 then 0 else s.count) + 64 * (if s.tms then 1 else 0) +
            128 * (if s.capture then 1 else 0) := rfl
      have hdec := headerField_decode (if s.count = 64 then 0 else s.count)
        (if s.tms then 1 else 0) (if s.capture then 1 else 0)
        (by split <;> omega) (by split <;> omega) (by split <;> omega)
      rw [← hEnc] at hdec
      have hnbits :
          (if (encodeHeader s &&& 0b00111111) = 0 then 64
            else (encodeHeader s &&& 0b00111111)) = s.count := by
        rw [hdec.1]
        by_cases h64 : s.count = 64 <;> simp [h64] <;> omega
      have htms : (decide ((encodeHeader s &&& 0b01000000) ≠ 0)) = s.tms := by
        by_cases hs : s.tms <;> simp only [hs] at hdec ⊢ <;> simp [hdec.2.1]
      have hbits8 : s.count ≤ 8 * s.tdi.length := by
        rw [hlen]
        unfold bytes_for_bits
        omega
      have hbitsEq := transferBits_eq s.tdi s.count hbits8
      have hwfRest : ∀ u ∈ rest, wfJtagSeq u :=
        fun u hu => hwf u (List.mem_cons_of_mem s hu)
      have ihc := ih (cyc + (transferBits s.tdi s.count).length) hwfRest
      have htrace :
          (transferBits s.tdi s.count).map
              (fun b => (decide ((encodeHeader s &&& 0b01000000) ≠ 0), b)) =
            expectedSeqTrace s := by
        rw [htms, hbitsEq, List.map_map]
        rfl
      simp only [List.flatMap_cons, List.cons_append, List.length_cons,
        jtagSequencesLoop, hnbits, ← hlen]
      rw [if_neg (by simp), List.take_left, List.drop_left]
      by_cases hcap : s.capture
      · have hcap1 : (encodeHeader s &&& 0b10000000) ≠ 0 := by
          simp only [hcap] at hdec
          simp [hdec.2.2]
        rw [if_pos hcap1]
        refine ⟨?_, ?_, ?_⟩
        · simp only [ihc.1]
          simp [capturedTotal, hcap, hlen]
        · simp only [List.length_append, captureBytes_length, ihc.2.1]
          simp [capturedTotal, hcap, hlen]
        · simp only [ihc.2.2, htrace]
      · have hcap0 : ¬ ((encodeHeader s &&& 0b10000000) ≠ 0) := by
          simp only [hcap] at hdec
          simp [hdec.2.2]
        rw [if_neg hcap0]
        refine ⟨?_, ?_, ?_⟩
        · simp only [ihc.1]
          simp [capturedTotal, hcap]
        · simp only [ihc.2.1]
          simp [capturedTotal, hcap]
        · simp only [ihc.2.2, htrace]

/-- C5: for every `DAP_JTAG_Sequence` body framed as the spec requires —
a sequence-count byte, then per sequence one header byte (bits 5..0 clock
count with 0 meaning 64, bit 6 the TMS value, bit 7 TDO-capture enable)
followed by `ceil(count/8)` TDI bytes — `JTAG::sequences` clocks out
exactly the first `count` TDI bits of each sequence LSbit first at that
TMS value, writes exactly `ceil(count/8)` captured TDO bytes for each
capture-enabled sequence, and returns the total number of captured bytes
written. -/
theorem jtag_sequences_contract (oracle : Nat → Bool) (ss : List JtagSeqSpec)
    (h255 : ss.length ≤ 255) (hwf : ∀ s ∈ ss, wfJtagSeq s) :
    (jtagSequences oracle (encodeJtagBody ss)).rxidx = capturedTotal ss ∧
    (jtagSequences oracle (encodeJtagBody ss)).rx.length = capturedTotal ss ∧
    (jtagSequences oracle (encodeJtagBody ss)).trace =
      ss.flatMap expectedSeqTrace := by
  have h := jtagSequencesLoop_encode oracle ss 0 hwf
  simpa [jtagSequences, encodeJtagBody] using h

/-- Witness for C5 at the concrete two-sequence body `jtagSeqsW` with an
all-ones TDO line: one byte is captured and the trace is the 11 predicted
`(TMS, TDI)` cycles. -/
theorem jtag_sequences_contract_witness :
    (jtagSequences (fun _ => true) (encodeJtagBody jtagSeqsW)).rxidx =
        capturedTotal jtagSeqsW ∧
    (jtagSequences (fun _ => true) (encodeJtagBody jtagSeqsW)).rx.length =
        capturedTotal jtagSeqsW ∧
    (jtagSequences (fun _ => true) (encodeJtagBody jtagSeqsW)).trace =
        jtagSeqsW.flatMap expectedSeqTrace :=
  jtag_sequences_contract (fun _ => true) jtagSeqsW (by decide) (by decide)

theorem respFinished_status (c v : Nat) :
    respFinished (writeU8 (respNew c) v) = [c, v % 256] := by
  norm_num [respFinished, writeU8, respNew, List.range_succ]

/-- Case analysis of `DAP::process_swj_sequence` on the decoded bit count:
ERROR reply with nothing transmitted for non-multiples of 8, OK reply with
exactly `count/8` transmitted bytes when the body suffices, and a panic on
a truncated body. -/
theorem processSwjSequence_spec (b : Nat) (rest : List Nat) :
    ((if b = 0 then 256 else if b = 51 then 56 else b) % 8 ≠ 0 →
        processSwjSequence (b :: rest) = .ok ([0x12, 0xFF], [])) ∧
    ((if b = 0 then 256 else if b = 51 then 56 else b) % 8 = 0 →
        (if b = 0 then 256 else if b = 51 then 56 else b) / 8 ≤ rest.length →
        processSwjSequence (b :: rest) =
          .ok ([0x12, 0x00],
            rest.take ((if b = 0 then 256 else if b = 51 then 56 else b) / 8))) ∧
    ((if b = 0 then 256 else if b = 51 then 56 else b) % 8 = 0 →
        rest.length < (if b = 0 then 256 else if b = 51 then 56 else b) / 8 →
        processSwjSequence (b :: rest) = .error .indexOutOfBounds) := by
  refine ⟨fun hmod => ?_, fun hmod hlen => ?_, fun hmod hlen => ?_⟩
  · simp only [processSwjSequence, nextU8]
    rw [if_pos hmod, respFinished_status]
  · simp only [processSwjSequence, nextU8]
    rw [if_neg (by simp [hmod]), if_neg (by omega), respFinished_status]
  · simp only [processSwjSequence, nextU8]
    rw [if_neg (by simp [hmod]), if_pos hlen]

/-- Dispatch: a report starting `0x12` goes to `process_swj_sequence`. -/
theorem processCommand_swj (oracle : Nat → SwdResult) (matchRetries : Nat)
    (body : List Nat) :
    processCommand oracle matchRetries (0x12 :: body) =
      match processSwjSequence body with
      | .error p => .panicked p
      | .ok (resp, tx) => .reply resp tx := by
  simp only [processCommand]
  rw [if_neg (not_not_intro (by decide))]
  simp

/-- Dispatch: an unrecognised command byte yields no reply at all. -/
theorem processCommand_unknown (oracle : Nat → SwdResult) (matchRetries : Nat)
    (cmd : Nat) (body : List Nat) (h : cmd ∉ commandCodes) :
    processCommand oracle matchRetries (cmd :: body) = .noResponse := by
  simp only [processCommand]
  rw [if_pos h]

/-- Dispatch: a recognised command with the catch-all `_` arm replies with
the single byte 0xFF. -/
theorem processCommand_unimplemented (oracle : Nat → SwdResult)
    (matchRetries : Nat) (cmd : Nat) (body : List Nat)
    (h : cmd ∈ unimplementedCodes) :
    processCommand oracle matchRetries (cmd :: body) = .reply [0xFF] [] := by
  fin_cases h <;> rfl

/-- C7: for every `DAP_SWJ_Sequence` request, a bit-count byte of 0 means
256 bits and 51 is remapped to 56; a resulting count that is not a
multiple of 8 is answered `[0x12, 0xFF]` (ERROR) with nothing transmitted,
and a multiple-of-8 count whose sequence bytes are present transmits
exactly `count/8` bytes and is answered `[0x12, 0x00]` (OK). -/
theorem swj_sequence_bitcount_contract (oracle : Nat → SwdResult)
    (matchRetries : Nat) (b : Nat) (rest : List Nat) :
    ((if b = 0 then 256 else if b = 51 then 56 else b) % 8 ≠ 0 →
        processCommand oracle matchRetries (0x12 :: b :: rest) =
          .reply [0x12, 0xFF] []) ∧
    ((if b = 0 then 256 else if b = 51 then 56 else b) % 8 = 0 →
        (if b = 0 then 256 else if b = 51 then 56 else b) / 8 ≤ rest.length →
        processCommand oracle matchRetries (0x12 :: b :: rest) =
          .reply [0x12, 0x00]
            (rest.take ((if b = 0 then 256 else if b = 51 then 56 else b) / 8))) := by
  obtain ⟨h1, h2, _⟩ := processSwjSequence_spec b rest
  refine ⟨fun hmod => ?_, fun hmod hlen => ?_⟩
  · rw [processCommand_swj, h1 hmod]
  · rw [processCommand_swj, h2 hmod hlen]

/-- Witness for C7: bit count 51 is remapped to 56 bits and the 7 bytes of
line-reset data are transmitted with an OK reply. -/
theorem swj_sequence_bitcount_contract_witness :
    processCommand (fun _ => .ok 0) 5
        (0x12 :: 51 :: [0xFF, 0xFF, 0xFF, 0xFF, 0xFF, 0xFF, 0xFF]) =
      .reply [0x12, 0x00] [0xFF, 0xFF, 0xFF, 0xFF, 0xFF, 0xFF, 0xFF] := by
  have h := (swj_sequence_bitcount_contract (fun _ => .ok 0) 5 51
    [0xFF, 0xFF, 0xFF, 0xFF, 0xFF, 0xFF, 0xFF]).2 (by decide) (by decide)
  simpa using h

/-- C2 counterexample: the report `[0x12, 0x10]` — `DAP_SWJ_Sequence`
announcing 16 bits with no sequence data — makes the interpreter index out
of bounds (`&req.rest()[..nbytes]` on a too-short body): `process_command`
does not complete without panicking on every ≤64-byte report. -/
theorem process_command_truncated_body_panics :
    processCommand (fun _ => .ok 0) 5 [0x12, 0x10] =
      .panicked .indexOutOfBounds := by rfl

/-- C2 (amended): `process_command` completes without panicking — errors
surfaced only through status bytes — for the empty report, for any
unrecognised or recognised-but-unimplemented command byte, and for
`DAP_SWJ_Sequence` requests whose body carries the announced `count/8`
sequence bytes; a truncated body, however, can panic. -/
theorem process_command_panic_boundary (oracle : Nat → SwdResult)
    (matchRetries : Nat) :
    processCommand oracle matchRetries [] = .noResponse ∧
    (∀ cmd body, cmd ∉ commandCodes →
        processCommand oracle matchRetries (cmd :: body) = .noResponse) ∧
    (∀ cmd body, cmd ∈ unimplementedCodes →
        processCommand oracle matchRetries (cmd :: body) = .reply [0xFF] []) ∧
    (∀ b rest,
        (if b = 0 then 256 else if b = 51 then 56 else b) % 8 = 0 →
        (if b = 0 then 256 else if b = 51 then 56 else b) / 8 ≤ rest.length →
        ∀ p, processCommand oracle matchRetries (0x12 :: b :: rest) ≠ .panicked p) ∧
    (∀ b rest,
        (if b = 0 then 256 else if b = 51 then 56 else b) % 8 ≠ 0 →
        processCommand oracle matchRetries (0x12 :: b :: rest) =
          .reply [0x12, 0xFF] []) := by
  refine ⟨rfl, fun cmd body h => processCommand_unknown _ _ _ _ h,
    fun cmd body h => processCommand_unimplemented _ _ _ _ h,
    fun b rest hmod hlen p => ?_, fun b rest hmod => ?_⟩
  · rw [processCommand_swj, (processSwjSequence_spec b rest).2.1 hmod hlen]
    simp
  · rw [processCommand_swj, (processSwjSequence_spec b rest).1 hmod]

/-- Witness for C2 (amended): the empty report, an unknown byte `0x20`, the
unimplemented `DAP_JTAG_Sequence` (0x14), and a complete 8-bit SWJ sequence
all complete without panicking. -/
theorem process_command_panic_boundary_witness :
    processCommand (fun _ => .ok 0) 5 [] = .noResponse ∧
    processCommand (fun _ => .ok 0) 5 [0x20, 1] = .noResponse ∧
    processCommand (fun _ => .ok 0) 5 [0x14, 9] = .reply [0xFF] [] ∧
    (∀ p, processCommand (fun _ => .ok 0) 5 [0x12, 8, 0xAA] ≠ .panicked p) := by
  obtain ⟨h1, h2, h3, h4, _⟩ := process_command_panic_boundary (fun _ => .ok 0) 5
  exact ⟨h1, h2 0x20 [1] (by decide), h3 0x14 [9] (by decide),
    h4 8 [0xAA] (by decide) (by decide)⟩

/-- C8 counterexample: the report `[0x20]` — 0x20 is not a `Command` enum
value — produces no reply at all (`Request::from_report` returns `None`),
not the single byte 0xFF the claim requires for every unrecognised
command. -/
theorem unknown_command_no_reply_counterexample :
    processCommand (fun _ => .ok 0) 5 [0x20] = .noResponse ∧
    processCommand (fun _ => .ok 0) 5 [0x20] ≠ .reply [0xFF] [] := by
  exact ⟨rfl, by decide⟩

/-- C8 (amended): reports whose first byte is one of the command codes in
the `Command` enum whose `process_command` arm is the catch-all
(`DAP_SWD_Sequence` 0x1D, `DAP_JTAG_Sequence` 0x14, `DAP_JTAG_Configure`
0x15, `DAP_JTAG_IDCODE` 0x16, `DAP_ExecuteCommands` 0x7F,
`DAP_QueueCommands` 0x7E, and 0xFF) are answered with the single byte
0xFF; a first byte outside the `Command` enum produces no reply at all. -/
theorem unimplemented_command_replies_ff (oracle : Nat → SwdResult)
    (matchRetries : Nat) :
    (∀ cmd body, cmd ∈ unimplementedCodes →
        processCommand oracle matchRetries (cmd :: body) = .reply [0xFF] []) ∧
    (∀ cmd body, cmd ∉ commandCodes →
        processCommand oracle matchRetries (cmd :: body) = .noResponse) :=
  ⟨fun cmd body h => processCommand_unimplemented _ _ _ _ h,
   fun cmd body h => processCommand_unknown _ _ _ _ h⟩

/-- Witness for C8 (amended): `DAP_SWD_Sequence` (0x1D) replies `[0xFF]`;
the non-enum byte 0x0B gets no reply. -/
theorem unimplemented_command_replies_ff_witness :
    processCommand (fun _ => .ok 0) 5 [0x1D, 0, 0] = .reply [0xFF] [] ∧
    processCommand (fun _ => .ok 0) 5 [0x0B] = .noResponse := by
  obtain ⟨h1, h2⟩ := unimplemented_command_replies_ff (fun _ => .ok 0) 5
  exact ⟨h1 0x1D [0, 0] (by decide), h2 0x0B [] (by decide)⟩

/-- C1 (code evaluation at the failing input): one value-match DP read
(element `0b1_0010`, target 1) against a target always answering ACK OK
with value 0, `match_retries = 5`.  All 6 transactions are OK, so the
status byte — response index 2 — ends at 1; the mismatch flag `1 << 4` is
OR-ed into response index 1, the transfer-count byte, which becomes
0x11 instead of 1.  The claim (and CMSIS-DAP, and the line above in the
source that stores the count there) put the mismatch flag in the status
byte; `resp.write_u8_at(1, …)` writes it over the count. -/
theorem transfer_vmatch_flag_written_to_count_byte :
    processTransfer (fun _ => .ok 0) 5 [0, 1, 0x12, 1, 0, 0, 0] =
      .ok ([0x05, 0x11, 0x01], 6) := by rfl

/-- C4 (code evaluation at the failing input): two transfers — a plain DP
read then a failing value-match read — produce the payload
`[0x12, 0x01, 0, 0, 0, 0]` after the command echo: 2 + 4·1 bytes as the
claim predicts, but response[0] is 0x12 = 2 ||| (1 << 4), not the number
of transfers executed (2), because the value-mismatch flag is OR-ed into
the count byte. -/
theorem transfer_response_count_byte_corrupted :
    processTransfer (fun _ => .ok 0) 0 [0, 2, 0x02, 0x12, 1, 0, 0, 0] =
      .ok ([0x05, 0x12, 0x01, 0, 0, 0, 0], 2) := by rfl

/-- C9 (code evaluation at the failing inputs): a GET_DESCRIPTOR for
string index 0xEE stalls EP0 (only indices 0–5 are served), and a vendor
control request with `bRequest = b'A' = 0x41` (GetOSFeature) also stalls —
for any `wLength`/`wValue` — even though `descriptors.rs` declares the
`MSFT100A` signature string the claim expects to be returned.  The claim
(and the spec) describe the Microsoft OS descriptor flow the declared data
exists for; this control endpoint never serves it. -/
theorem ms_os_descriptor_requests_stall :
    (∀ hexId ifDap wLength,
        processGetStringDescriptor hexId ifDap wLength 0xEE = .stallEp) ∧
    (∀ wValue, processVendorRequest 0x41 wValue = .stalled) ∧
    STRING_MOS = asciiBytes "MSFT100A" :=
  ⟨fun _ _ _ => rfl, fun _ => rfl, rfl⟩

end Ffp
